import Mathlib

/-!
Shallow embedding of `src/client.py` (lsc-jh/board-game-client), a terminal
client for a multiplayer grid game.  Pure data and state transitions are
translated directly from the source; terminal colours/glyph strings and the
websocket transport are rendering/IO concerns abstracted into inert
constructors.  Python integer list indexing (negative indices wrap, anything
else raises IndexError) is modelled explicitly by `pyIndex`.
-/

namespace BoardGameClient

/-- Python `Pos` class (client.py lines 30-33): an integer pair. -/
structure Pos where
  x : Int
  y : Int
deriving DecidableEq

/-- The tile variants of client.py (classes Tile/Wall/Empty/Player/Enemy/
Treasure/Exit, lines 36-122).  `wall` keeps the `map_size` constructor
argument; `player` keeps `is_self`; `treasure` keeps `collected`.  The
`symbol`/`term` fields only affect terminal rendering and carry no state. -/
inductive TileKind where
  | empty : TileKind
  | wall (mapSize : Int × Int) : TileKind
  | player (isSelf : Bool) : TileKind
  | enemy : TileKind
  | treasure (collected : Bool) : TileKind
  | exitK : TileKind
deriving DecidableEq

/-- The `walkable` flag passed to `Tile.__init__` by each subclass:
`Wall` passes `False` (line 57), every other subclass passes `True`. -/
def TileKind.walkable : TileKind → Bool
  | .wall _ => false
  | _ => true

/-- A tile as stored in `self.map`: its variant and the `Pos` it was
constructed with. -/
structure Tile where
  kind : TileKind
  pos : Pos
deriving DecidableEq

def emptyTile (p : Pos) : Tile := ⟨.empty, p⟩

def wallTile (p : Pos) (mapSize : Int × Int) : Tile := ⟨.wall mapSize, p⟩

def playerTile (p : Pos) (isSelf : Bool) : Tile := ⟨.player isSelf, p⟩

def enemyTile (p : Pos) : Tile := ⟨.enemy, p⟩

def treasureTile (p : Pos) (collected : Bool) : Tile := ⟨.treasure collected, p⟩

def exitTileOf (p : Pos) : Tile := ⟨.exitK, p⟩

/-- Python exceptions that the handlers of client.py can raise. -/
inductive PyError where
  | keyError : PyError
  | indexError : PyError
  | typeError : PyError
deriving DecidableEq

/-- Python list indexing: `l[i]` on a list of length `n` uses index `i` when
`0 <= i < n`, index `n + i` when `-n <= i < 0`, and raises IndexError
otherwise. -/
def pyIndex (n : Nat) (i : Int) : Option Nat :=
  if 0 ≤ i ∧ i < (n : Int) then some i.toNat
  else if -(n : Int) ≤ i ∧ i < 0 then some ((n : Int) + i).toNat
  else none

/-- The grid as held in `self.map`: a list of rows of tiles. -/
abbrev GridMap := List (List Tile)

def dummyTile : Tile := ⟨.empty, ⟨0, 0⟩⟩

/-- The length of row `iy` (0 when out of range). -/
def rowLen (m : GridMap) (iy : Nat) : Nat := (m.getD iy []).length

/-- Resolution of the Python index pair `[y][x]` against a grid: first the
row index is resolved against the number of rows, then the column index
against that row; the result is the (row, column) actually addressed, or
`none` for IndexError. -/
def normIdx (m : GridMap) (x y : Int) : Option (Nat × Nat) :=
  match pyIndex m.length y with
  | none => none
  | some iy =>
    match pyIndex (rowLen m iy) x with
    | none => none
    | some ix => some (iy, ix)

/-- In-range cell read at resolved (row, column) indices. -/
def getN (m : GridMap) (iy ix : Nat) : Tile := (m.getD iy []).getD ix dummyTile

/-- In-range cell write at resolved (row, column) indices. -/
def setN (m : GridMap) (iy ix : Nat) (t : Tile) : GridMap :=
  m.set iy ((m.getD iy []).set ix t)

/-- Python `self.map[y][x]` as a read, with Python indexing semantics;
`none` means IndexError. -/
def getCell? (m : GridMap) (x y : Int) : Option Tile :=
  match normIdx m x y with
  | none => none
  | some q => some (getN m q.1 q.2)

/-- Python `self.map[y][x] = t`, with Python indexing semantics;
`none` means IndexError (and in that case the map is left unchanged,
since the exception fires before any write). -/
def setCell (m : GridMap) (x y : Int) (t : Tile) : Option GridMap :=
  match normIdx m x y with
  | none => none
  | some q => some (setN m q.1 q.2 t)

/-- The mutable state of `GameClient` (client.py lines 125-135); the
`uri`/`term` fields are connection/rendering handles with no game state. -/
structure GameClient where
  map : GridMap
  players : List (String × Tile)
  enemies : List Tile
  treasure : Option Tile
  exitTile : Option Tile
  map_size : Int × Int
  player_id : Option String
deriving DecidableEq

/-- `GameClient.__init__`: empty map, empty registries, size (0,0). -/
def initialClient : GameClient :=
  { map := [], players := [], enemies := [], treasure := none,
    exitTile := none, map_size := (0, 0), player_id := none }

/-- Payload of an `init` message.  `width`/`height`/`walls`/`exit` model the
JSON dict entries; `none` means the key is absent (Python raises KeyError on
`data[k]`).  Individual wall entries are assumed well-shaped `{x,y}` dicts. -/
structure InitData where
  width : Option Int
  height : Option Int
  walls : Option (List Pos)
  exitPos : Option Pos
deriving DecidableEq

/-- The shape the `enemies` JSON value can decode to: a dict (the wire shape
documented by the spec) or a list of positions (the shape the code iterates).
Iterating a Python dict yields its string keys, so the loop body
`pos["x"]` raises TypeError on any non-empty dict. -/
inductive EnemiesField where
  | dict (entries : List (String × Pos)) : EnemiesField
  | list (entries : List Pos) : EnemiesField
deriving DecidableEq

/-- The `treasure` entry of a `state` message; `collected` is read with
`t.get("collected", False)`. -/
structure TreasureData where
  x : Int
  y : Int
  collected : Option Bool
deriving DecidableEq

/-- Payload of a `state` message; `none` on `players`/`enemies` means the
key is absent (KeyError on `data[k]`); `you` is read with `.get`, so absence
is not an error. -/
structure StateData where
  you : Option String
  players : Option (List (String × Pos))
  enemies : Option EnemiesField
  treasure : Option TreasureData
deriving DecidableEq

/-- Python dict assignment `d[k] = v`: replace in place if the key exists,
otherwise append. -/
def dictInsert (reg : List (String × Tile)) (k : String) (v : Tile) :
    List (String × Tile) :=
  if reg.any (fun e => e.1 == k) then
    reg.map (fun e => if e.1 == k then (k, v) else e)
  else reg ++ [(k, v)]

/-- The wall-placement loop of `handle_init` (lines 166-168): each wall write
goes through Python indexing; on IndexError the map keeps the writes made so
far and the exception propagates. -/
def wallsLoop (m : GridMap) (size : Int × Int) : List Pos → GridMap × Option PyError
  | [] => (m, none)
  | p :: rest =>
    match setCell m p.x p.y (wallTile p size) with
    | none => (m, some .indexError)
    | some m2 => wallsLoop m2 size rest

/-- The fresh all-`Empty` map built at line 165:
`[[Empty(Pos(x, y), ...) for x in range(width)] for y in range(height)]`. -/
def buildMap (w h : Int) : GridMap :=
  (List.range h.toNat).map fun y =>
    (List.range w.toNat).map fun x => emptyTile ⟨Int.ofNat x, Int.ofNat y⟩

/-- `GameClient.handle_init` (lines 163-172).  Order is the source order:
set `map_size`, rebuild `map` all-Empty, write walls, then (if present)
store `self.exit` and write the exit tile.  The second component is the
exception the call raises, if any; the first is the object state at
that moment (Python leaves partial mutations in place). -/
def handle_init (c : GameClient) (d : InitData) : GameClient × Option PyError :=
  match d.width, d.height with
  | none, _ => (c, some .keyError)
  | some _, none => (c, some .keyError)
  | some w, some h =>
    let size := (w, h)
    let c1 := { c with map_size := size, map := buildMap w h }
    match d.walls with
    | none => (c1, some .keyError)
    | some walls =>
      match wallsLoop c1.map size walls with
      | (m, some e) => ({ c1 with map := m }, some e)
      | (m, none) =>
        let c2 := { c1 with map := m }
        match d.exitPos with
        | none => (c2, none)
        | some p =>
          let ex := exitTileOf p
          let c3 := { c2 with exitTile := some ex }
          match setCell c3.map p.x p.y ex with
          | none => (c3, some .indexError)
          | some m2 => ({ c3 with map := m2 }, none)

/-- The player loop of `handle_state` (lines 178-181): build the tile with
`is_self = (pid == data.get("you"))`, insert into the registry dict, then
write the map cell (registry insertion happens before the possibly-failing
map write). -/
def playersLoop (you : Option String) (reg : List (String × Tile)) (m : GridMap) :
    List (String × Pos) → (List (String × Tile)) × GridMap × Option PyError
  | [] => (reg, m, none)
  | (pid, p) :: rest =>
    let t := playerTile p (you == some pid)
    let reg2 := dictInsert reg pid t
    match setCell m p.x p.y t with
    | none => (reg2, m, some .indexError)
    | some m2 => playersLoop you reg2 m2 rest

/-- The enemy-list loop of `handle_state` (lines 183-186): append the enemy
tile to `self.enemies`, then write the map cell. -/
def enemiesListLoop (es : List Tile) (m : GridMap) :
    List Pos → List Tile × GridMap × Option PyError
  | [] => (es, m, none)
  | p :: rest =>
    let t := enemyTile p
    let es2 := es ++ [t]
    match setCell m p.x p.y t with
    | none => (es2, m, some .indexError)
    | some m2 => enemiesListLoop es2 m2 rest

/-- `for pos in data["enemies"]` when the value is a dict: iteration yields
string keys, and `pos["x"]` on a string raises TypeError at the first entry,
before any state change; an empty dict iterates zero times. -/
def enemiesStep (c : GameClient) : EnemiesField → GameClient × Option PyError
  | .dict [] => (c, none)
  | .dict (_ :: _) => (c, some .typeError)
  | .list ps =>
    match enemiesListLoop c.enemies c.map ps with
    | (es, m, e) => ({ c with enemies := es, map := m }, e)

/-- `GameClient.handle_state` (lines 174-191).  Faithful order:
`self.players.clear(); self.enemies.clear()`, then the players loop (KeyError
if `players` is absent), then the enemies loop (KeyError if `enemies` is
absent), then the optional treasure write (`self.treasure` is assigned before
the possibly-failing map write).  The second component is the exception the
call raises; the first is the object state at that moment. -/
def handle_state (c : GameClient) (d : StateData) : GameClient × Option PyError :=
  let c0 := { c with players := [], enemies := [] }
  match d.players with
  | none => (c0, some .keyError)
  | some ps =>
    match playersLoop d.you c0.players c0.map ps with
    | (reg, m, some e) => ({ c0 with players := reg, map := m }, some e)
    | (reg, m, none) =>
      let c1 := { c0 with players := reg, map := m }
      match d.enemies with
      | none => (c1, some .keyError)
      | some ef =>
        match enemiesStep c1 ef with
        | (c2, some e) => (c2, some e)
        | (c2, none) =>
          match d.treasure with
          | none => (c2, none)
          | some t =>
            let tile := treasureTile ⟨t.x, t.y⟩ (t.collected.getD false)
            let c3 := { c2 with treasure := some tile }
            match setCell c3.map t.x t.y tile with
            | none => (c3, some .indexError)
            | some m2 => ({ c3 with map := m2 }, none)

/-- A decoded inbound message, dispatched on its `type` field
(lines 148-151); any other `type` value falls through with no handler. -/
inductive Msg where
  | initMsg (d : InitData) : Msg
  | stateMsg (d : StateData) : Msg
  | otherMsg : Msg

/-- One message-dispatch step of `main_loop` (lines 148-151), keeping the
partially mutated state together with the raised exception, if any. -/
def dispatch (c : GameClient) : Msg → GameClient × Option PyError
  | .initMsg d => handle_init c d
  | .stateMsg d => handle_state c d
  | .otherMsg => (c, none)

/-- `main_loop` wraps the dispatch in no try/except: an exception raised by a
handler escapes the loop (the loop does not continue to the next tick).
`.error e` is that crash; `.ok` is the state the next tick starts from. -/
def tick (c : GameClient) (m : Msg) : Except PyError GameClient :=
  match dispatch c m with
  | (c2, none) => .ok c2
  | (_, some e) => .error e

/-- Python str.lower, modelled character-wise (the keys involved are ASCII
single characters, where Python and char-wise lowering agree). -/
def pyLower (s : String) : String := ⟨s.data.map Char.toLower⟩

/-- Python str.startswith, modelled as a character-level prefix test. -/
def pyStartsWith (s pre : String) : Bool := pre.data.isPrefixOf s.data

/-- The key-to-direction dict of line 158:
`{"w": "up", "s": "down", "a": "left", "d": "right"}.get(key.lower())`. -/
def directionMap (s : String) : Option String :=
  if s == "w" then some "up"
  else if s == "s" then some "down"
  else if s == "a" then some "left"
  else if s == "d" then some "right"
  else none

/-- What the input branch of one tick does with the pressed key. -/
inductive KeyEffect where
  | quitProgram : KeyEffect
  | sendMove (dir : String) : KeyEffect
  | noop : KeyEffect
deriving DecidableEq

/-- The keyboard branch of `main_loop` (lines 154-161): `q` calls `exit()`;
otherwise, if the direction dict maps the lowercased key, a
`{"type": "move", "dir": direction}` message is sent; nothing else is
consulted — in particular neither the grid nor any notion of self position
enters this computation. -/
def mainLoopKeyStep (key : String) : KeyEffect :=
  if pyLower key == "q" then .quitProgram
  else
    match directionMap (pyLower key) with
    | some d => .sendMove d
    | none => .noop

/-- One unit of terminal output produced by `draw`. -/
inductive DrawOp where
  | clearScreen : DrawOp
  | renderTile (t : Tile) : DrawOp
  | newline : DrawOp
deriving DecidableEq

/-- `GameClient.draw` (lines 193-198): print home+clear, then print every
tile of every row, with a newline after each row.  There is no dirty-set
anywhere in the class; the whole grid is emitted on every call. -/
def draw (c : GameClient) : List DrawOp :=
  .clearScreen ::
    (c.map.map (fun row => row.map DrawOp.renderTile ++ [DrawOp.newline])).flatten

/-- The tiles a `draw` output actually renders, in emission order. -/
def drawnTiles (ops : List DrawOp) : List Tile :=
  ops.filterMap fun op =>
    match op with
    | .renderTile t => some t
    | _ => none

/-- What the module-level startup code does (exit with a code, or proceed
to connect with the given URI). -/
inductive StartupOutcome where
  | fatalError (diagnostic : String) (exitCode : Nat) : StartupOutcome
  | proceed (uri : String) : StartupOutcome
deriving DecidableEq

/-- Module-level startup checks (client.py lines 12-20): missing
`SERVER_URI` prints a message and exits with status 1; a value not starting
with `ws://` likewise; otherwise the program proceeds to connect.  The two
diagnostic strings are the printed messages (quotes from the second source
string elided). -/
def startup (serverUri : Option String) : StartupOutcome :=
  match serverUri with
  | none => .fatalError "Please set the SERVER_URI environment variable." 1
  | some uri =>
    if pyStartsWith uri "ws://" then .proceed uri
    else .fatalError "Invalid SERVER_URI. It should start with ws://." 1

/-- Modelled from the spec (the source has no dirty-set): the dirty set of a
grid transition is the set of coordinates whose cell contents changed,
listed as (x, y) pairs over the larger of the two extents. -/
def dirtySet (a b : GridMap) : List (Nat × Nat) :=
  ((List.range (max a.length b.length)).map fun iy =>
    (List.range (max (a.getD iy []).length (b.getD iy []).length)).filterMap
      fun ix => if getN a iy ix = getN b iy ix then none else some (ix, iy)).flatten

/-! Analysis vocabulary: the handlers above are folds of single-cell map
writes; the definitions below name those write sequences so that the
handlers can be reasoned about generically. -/

/-- Two grids have the same shape: same row count and same row lengths. -/
def sameShape (a b : GridMap) : Prop :=
  a.length = b.length ∧ ∀ iy, rowLen a iy = rowLen b iy

/-- One pending map write `self.map[y][x] = tile`. -/
structure CellWrite where
  x : Int
  y : Int
  tile : Tile
deriving DecidableEq

/-- Run a sequence of cell writes left to right; `none` as soon as one is
out of range. -/
def mapApply : GridMap → List CellWrite → Option GridMap
  | m, [] => some m
  | m, w :: ws =>
    match setCell m w.x w.y w.tile with
    | none => none
    | some m2 => mapApply m2 ws

/-- The value of the last write in `ws` that lands on cell `(jy, jx)` of a
grid shaped like `m`, if any. -/
def lastVal (m : GridMap) (ws : List CellWrite) (jy jx : Nat) : Option Tile :=
  ws.foldl (fun acc w => if normIdx m w.x w.y = some (jy, jx) then some w.tile else acc) none

/-- The map writes performed by the players loop of `handle_state`. -/
def playerWrites (you : Option String) (ps : List (String × Pos)) : List CellWrite :=
  ps.map fun q => ⟨q.2.x, q.2.y, playerTile q.2 (you == some q.1)⟩

/-- The map writes performed by the wall loop of `handle_init`. -/
def wallWrites (size : Int × Int) (walls : List Pos) : List CellWrite :=
  walls.map fun p => ⟨p.x, p.y, wallTile p size⟩

/-- The map writes performed by the enemies loop on a list-shaped field. -/
def enemyWrites (es : List Pos) : List CellWrite :=
  es.map fun p => ⟨p.x, p.y, enemyTile p⟩

/-- The map writes of the enemies step (a dict-shaped field performs none:
it either iterates zero times or raises before any write). -/
def enemiesWritesOf : EnemiesField → List CellWrite
  | .dict _ => []
  | .list es => enemyWrites es

/-- The map write of the optional treasure step. -/
def treasureWriteOf : Option TreasureData → List CellWrite
  | none => []
  | some t => [⟨t.x, t.y, treasureTile ⟨t.x, t.y⟩ (t.collected.getD false)⟩]

/-- An enemies field the loop can traverse without a TypeError. -/
def enemiesOkShape : EnemiesField → Prop
  | .dict l => l = []
  | .list _ => True

/-- All map writes of a `state` message, in source order. -/
def stateWrites (you : Option String) (ps : List (String × Pos))
    (ef : EnemiesField) (td : Option TreasureData) : List CellWrite :=
  playerWrites you ps ++ enemiesWritesOf ef ++ treasureWriteOf td

/-- The player registry produced by folding the dict inserts of the players
loop over `reg`. -/
def regAfter (you : Option String) (ps : List (String × Pos))
    (reg : List (String × Tile)) : List (String × Tile) :=
  ps.foldl (fun r q => dictInsert r q.1 (playerTile q.2 (you == some q.1))) reg

/-- The enemies list produced by the enemies step. -/
def enemiesAfter (ef : EnemiesField) (acc : List Tile) : List Tile :=
  match ef with
  | .dict _ => acc
  | .list es => acc ++ es.map enemyTile

/-- The treasure slot after the optional treasure step. -/
def treasAfter (td : Option TreasureData) (old : Option Tile) : Option Tile :=
  match td with
  | none => old
  | some t => some (treasureTile ⟨t.x, t.y⟩ (t.collected.getD false))

/-- The ids present in a registry. -/
def regKeys (reg : List (String × Tile)) : List String := reg.map Prod.fst

/-! Concrete scenario inputs used by counterexamples and witnesses, built
from the wire examples of the spec (5×5 grid, player p1, and so on). -/

/-- An `init` message: 5×5, no walls, no exit. -/
def initMsg5 : InitData :=
  { width := some 5, height := some 5, walls := some [], exitPos := none }

/-- The client after applying `initMsg5` to a fresh client. -/
def client5 : GameClient := (handle_init initialClient initMsg5).1

/-- An `init` message: 5×5 with a single wall at (2,2). -/
def initMsgWall22 : InitData :=
  { width := some 5, height := some 5, walls := some [⟨2, 2⟩], exitPos := none }

/-- The client after applying `initMsgWall22`. -/
def clientWall22 : GameClient := (handle_init initialClient initMsgWall22).1

/-- Scenario B: `state` placing p1 at (2,2) with `you = "p1"`. -/
def stP1At22 : StateData :=
  { you := some "p1", players := some [("p1", ⟨2, 2⟩)],
    enemies := some (.list []), treasure := none }

/-- Scenario C: subsequent `state` moving p1 to (2,3). -/
def stP1At23 : StateData :=
  { you := some "p1", players := some [("p1", ⟨2, 3⟩)],
    enemies := some (.list []), treasure := none }

/-- The client after `initMsg5` then `stP1At22`. -/
def clientP1At22 : GameClient := (handle_state client5 stP1At22).1

/-- The client after `initMsg5`, `stP1At22`, then `stP1At23`. -/
def clientP1At23 : GameClient := (handle_state clientP1At22 stP1At23).1

/-- The client after `initMsgWall22` then `stP1At23`: self is at (2,3) and
the cell above it, (2,2), is a `Wall`. -/
def clientSelfBelowWall : GameClient := (handle_state clientWall22 stP1At23).1

/-- Scenario E: a `state` message whose `enemies` key is missing. -/
def stNoEnemies : StateData :=
  { you := none, players := some [("p1", ⟨2, 3⟩)], enemies := none, treasure := none }

/-- A `state` message with an empty players dict and an empty enemies list. -/
def stNobody : StateData :=
  { you := none, players := some [], enemies := some (.list []), treasure := none }

/-- A `state` message whose enemies field has the documented wire shape: a
mapping from entity id to a position object. -/
def stEnemyDict : StateData :=
  { you := none, players := some [],
    enemies := some (.dict [("e1", ⟨1, 1⟩)]), treasure := none }

/-- An `init` message whose exit coordinate is also listed as a wall. -/
def initMsgOverlap : InitData :=
  { width := some 2, height := some 1, walls := some [⟨0, 0⟩], exitPos := some ⟨0, 0⟩ }

/-- A `state` message placing a player at (0, -6): one row beyond the
negative-index range of a 5-row grid. -/
def stFarNegative : StateData :=
  { you := none, players := some [("p1", ⟨0, -6⟩)],
    enemies := some (.list []), treasure := none }

/-- A singleton-player `state` message at an arbitrary position, used to
probe the bounds behaviour of the map write. -/
def stOnePlayerAt (x y : Int) : StateData :=
  { you := none, players := some [("p1", ⟨x, y⟩)],
    enemies := some (.list []), treasure := none }

/-- A `state` message carrying exactly one player `pid` at `p`, with
`you = pid` (so the placed tile has `is_self = True`). -/
def msgOne (pid : String) (p : Pos) : StateData :=
  { you := some pid, players := some [(pid, p)],
    enemies := some (.list []), treasure := none }

/-- The client after applying `stP1At22` twice in a row (second apply of the
same message). -/
def clientP1At22Again : GameClient := (handle_state clientP1At22 stP1At22).1

/-- A grid with `h` rows that each have `w` cells. -/
def rectGrid (m : GridMap) (w h : Nat) : Prop :=
  m.length = h ∧ ∀ iy, iy < h → rowLen m iy = w

/-! Basic lemmas about Python indexing and single-cell writes. -/

theorem pyIndex_lt {n : Nat} {i : Int} {k : Nat} (h : pyIndex n i = some k) : k < n := by
  unfold pyIndex at h
  split at h
  · next h1 => injection h with h; omega
  · split at h
    · next h2 => injection h with h; omega
    · exact absurd h (by simp)

theorem pyIndex_of_nonneg {n : Nat} {i : Int} (h0 : 0 ≤ i) (h1 : i < (n : Int)) :
    pyIndex n i = some i.toNat := by
  unfold pyIndex
  rw [if_pos ⟨h0, h1⟩]

theorem pyIndex_of_neg {n : Nat} {i : Int} (h0 : -(n : Int) ≤ i) (h1 : i < 0) :
    pyIndex n i = some ((n : Int) + i).toNat := by
  unfold pyIndex
  rw [if_neg (by omega), if_pos ⟨h0, h1⟩]

theorem pyIndex_eq_none {n : Nat} {i : Int} (h : i < -(n : Int) ∨ (n : Int) ≤ i) :
    pyIndex n i = none := by
  unfold pyIndex
  rw [if_neg (by omega), if_neg (by omega)]

theorem listSet_getD {α : Type} (l : List α) (i j : Nat) (a d : α) :
    (l.set i a).getD j d = if i = j ∧ i < l.length then a else l.getD j d := by
  rw [List.getD_eq_getElem?_getD, List.getD_eq_getElem?_getD, List.getElem?_set]
  by_cases hij : i = j
  · subst hij
    by_cases hlen : i < l.length
    · simp [hlen]
    · have : l[i]? = none := by
        rw [List.getElem?_eq_none_iff]; omega
      simp [hlen, this]
  · simp [hij]

theorem getD_of_lt {α : Type} (l : List α) {n : Nat} (h : n < l.length) (d : α) :
    l.getD n d = l[n] := by
  rw [List.getD_eq_getElem?_getD, List.getElem?_eq_getElem h]
  rfl

theorem length_setN (m : GridMap) (iy ix : Nat) (t : Tile) :
    (setN m iy ix t).length = m.length := by
  unfold setN
  exact List.length_set ..

theorem rowLen_setN (m : GridMap) (iy ix : Nat) (t : Tile) (j : Nat) :
    rowLen (setN m iy ix t) j = rowLen m j := by
  unfold rowLen setN
  rw [listSet_getD]
  split
  · next hc => rw [← hc.1, List.length_set]
  · rfl

theorem sameShape_refl (m : GridMap) : sameShape m m := ⟨rfl, fun _ => rfl⟩

theorem sameShape_symm {a b : GridMap} (h : sameShape a b) : sameShape b a :=
  ⟨h.1.symm, fun iy => (h.2 iy).symm⟩

theorem sameShape_trans {a b c : GridMap} (h1 : sameShape a b) (h2 : sameShape b c) :
    sameShape a c :=
  ⟨h1.1.trans h2.1, fun iy => (h1.2 iy).trans (h2.2 iy)⟩

theorem sameShape_setN (m : GridMap) (iy ix : Nat) (t : Tile) :
    sameShape (setN m iy ix t) m :=
  ⟨length_setN .., fun _ => rowLen_setN ..⟩

theorem getN_setN_self {m : GridMap} {iy ix : Nat} (t : Tile)
    (hy : iy < m.length) (hx : ix < rowLen m iy) :
    getN (setN m iy ix t) iy ix = t := by
  unfold getN setN
  rw [listSet_getD, if_pos ⟨rfl, hy⟩, listSet_getD, if_pos ⟨rfl, hx⟩]

theorem getN_setN_ne {iy ix jy jx : Nat} (m : GridMap) (t : Tile)
    (h : ¬(iy = jy ∧ ix = jx)) :
    getN (setN m iy ix t) jy jx = getN m jy jx := by
  unfold getN setN
  rw [listSet_getD]
  split
  · next hc =>
    have hxx : ¬(ix = jx) := fun hx => h ⟨hc.1, hx⟩
    rw [listSet_getD, if_neg (fun hx => hxx hx.1), hc.1]
  · rfl

/-! Normalised indices and sequences of writes. -/

theorem normIdx_congr {a b : GridMap} (h : sameShape a b) (x y : Int) :
    normIdx a x y = normIdx b x y := by
  unfold normIdx
  rw [h.1]
  cases hy : pyIndex b.length y with
  | none => rfl
  | some iy => simp only [h.2 iy]

theorem normIdx_lt {m : GridMap} {x y : Int} {iy ix : Nat}
    (h : normIdx m x y = some (iy, ix)) : iy < m.length ∧ ix < rowLen m iy := by
  unfold normIdx at h
  cases hy : pyIndex m.length y with
  | none => simp only [hy] at h; exact Option.noConfusion h
  | some iy2 =>
    simp only [hy] at h
    cases hx : pyIndex (rowLen m iy2) x with
    | none => simp only [hx] at h; exact Option.noConfusion h
    | some ix2 =>
      simp only [hx, Option.some.injEq, Prod.mk.injEq] at h
      obtain ⟨h1, h2⟩ := h
      subst h1; subst h2
      exact ⟨pyIndex_lt hy, pyIndex_lt hx⟩

theorem setCell_eq_norm (m : GridMap) (x y : Int) (t : Tile) :
    setCell m x y t = (normIdx m x y).map fun p => setN m p.1 p.2 t := by
  unfold setCell
  cases normIdx m x y with
  | none => rfl
  | some q => rfl

theorem setCell_ok_iff {m m' : GridMap} {x y : Int} {t : Tile} :
    setCell m x y t = some m' ↔
      ∃ q, normIdx m x y = some q ∧ m' = setN m q.1 q.2 t := by
  unfold setCell
  cases hn : normIdx m x y with
  | none => simp
  | some q =>
    simp only [Option.some.injEq]
    constructor
    · intro h
      exact ⟨q, rfl, h.symm⟩
    · rintro ⟨q', hq', he⟩
      subst hq'
      exact he.symm

theorem mapApply_shape {m m' : GridMap} {ws : List CellWrite}
    (h : mapApply m ws = some m') : sameShape m' m := by
  induction ws generalizing m with
  | nil =>
    unfold mapApply at h
    injection h with h
    subst h
    exact sameShape_refl m
  | cons w ws ih =>
    unfold mapApply at h
    cases hsc : setCell m w.x w.y w.tile with
    | none => rw [hsc] at h; exact absurd h (by simp)
    | some m2 =>
      rw [hsc] at h
      rw [setCell_eq_norm] at hsc
      cases hn : normIdx m w.x w.y with
      | none => rw [hn] at hsc; exact absurd hsc (by simp)
      | some p =>
        rw [hn] at hsc
        injection hsc with hsc
        subst hsc
        exact sameShape_trans (ih h) (sameShape_setN ..)

theorem mapApply_append (m : GridMap) (ws1 ws2 : List CellWrite) :
    mapApply m (ws1 ++ ws2) = (mapApply m ws1).bind fun m1 => mapApply m1 ws2 := by
  induction ws1 generalizing m with
  | nil => rfl
  | cons w ws ih =>
    show mapApply m (w :: (ws ++ ws2)) = _
    cases hsc : setCell m w.x w.y w.tile with
    | none => simp [mapApply, hsc]
    | some m2 => simp [mapApply, hsc, ih m2]

theorem mapApply_ok_congr {a b b' : GridMap} {ws : List CellWrite}
    (h : sameShape a b) (hb : mapApply b ws = some b') :
    ∃ a', mapApply a ws = some a' := by
  induction ws generalizing a b b' with
  | nil => exact ⟨a, rfl⟩
  | cons w ws ih =>
    unfold mapApply at hb ⊢
    cases hsc : setCell b w.x w.y w.tile with
    | none => rw [hsc] at hb; exact absurd hb (by simp)
    | some b2 =>
      rw [hsc] at hb
      rw [setCell_eq_norm] at hsc
      cases hn : normIdx b w.x w.y with
      | none => rw [hn] at hsc; exact absurd hsc (by simp)
      | some p =>
        rw [hn] at hsc
        injection hsc with hsc
        rw [setCell_eq_norm, normIdx_congr h, hn]
        have hshape : sameShape (setN a p.1 p.2 w.tile) (setN b p.1 p.2 w.tile) := by
          subst hsc
          exact sameShape_trans (sameShape_setN ..)
            (sameShape_trans h (sameShape_symm (sameShape_setN ..)))
        obtain ⟨a', ha'⟩ := ih hshape (hsc ▸ hb)
        exact ⟨a', ha'⟩

theorem lastVal_congr {a b : GridMap} (h : sameShape a b) (ws : List CellWrite)
    (jy jx : Nat) : lastVal a ws jy jx = lastVal b ws jy jx := by
  unfold lastVal
  have : (fun (acc : Option Tile) (w : CellWrite) =>
      if normIdx a w.x w.y = some (jy, jx) then some w.tile else acc) =
      fun acc w => if normIdx b w.x w.y = some (jy, jx) then some w.tile else acc := by
    funext acc w
    rw [normIdx_congr h]
  rw [this]

theorem lastVal_foldl_init (m : GridMap) (ws : List CellWrite) (jy jx : Nat)
    (init : Option Tile) :
    ws.foldl (fun acc w => if normIdx m w.x w.y = some (jy, jx) then some w.tile else acc) init =
      match lastVal m ws jy jx with
      | some v => some v
      | none => init := by
  induction ws generalizing init with
  | nil => rfl
  | cons w ws ih =>
    show List.foldl _ (if normIdx m w.x w.y = some (jy, jx) then some w.tile else init) ws = _
    rw [ih]
    have hcons : lastVal m (w :: ws) jy jx =
        match lastVal m ws jy jx with
        | some v => some v
        | none => if normIdx m w.x w.y = some (jy, jx) then some w.tile else none := by
      show List.foldl _ (if normIdx m w.x w.y = some (jy, jx) then some w.tile else none) ws = _
      rw [ih]
    rw [hcons]
    cases lastVal m ws jy jx with
    | none =>
      by_cases hc : normIdx m w.x w.y = some (jy, jx)
      · rw [if_pos hc, if_pos hc]
      · rw [if_neg hc, if_neg hc]
    | some v => rfl

theorem mapApply_getN {m m' : GridMap} {ws : List CellWrite}
    (h : mapApply m ws = some m') (jy jx : Nat) :
    getN m' jy jx =
      match lastVal m ws jy jx with
      | some t => t
      | none => getN m jy jx := by
  induction ws generalizing m with
  | nil =>
    unfold mapApply at h
    injection h with h
    subst h
    rfl
  | cons w ws ih =>
    simp only [mapApply] at h
    cases hsc : setCell m w.x w.y w.tile with
    | none => simp only [hsc] at h; exact Option.noConfusion h
    | some m2 =>
      simp only [hsc] at h
      obtain ⟨q, hn, hm2⟩ := setCell_ok_iff.mp hsc
      obtain ⟨iy, ix⟩ := q
      dsimp only at hm2
      have hshape : sameShape m2 m := hm2 ▸ sameShape_setN ..
      have hlv : lastVal m2 ws jy jx = lastVal m ws jy jx := lastVal_congr hshape ws jy jx
      have hcons : lastVal m (w :: ws) jy jx =
          match lastVal m ws jy jx with
          | some v => some v
          | none => if normIdx m w.x w.y = some (jy, jx) then some w.tile else none := by
        show List.foldl _ (if normIdx m w.x w.y = some (jy, jx) then some w.tile else none) ws = _
        rw [lastVal_foldl_init]
      rw [hcons]
      rw [ih h, hlv]
      cases lastVal m ws jy jx with
      | some v => rfl
      | none =>
        by_cases hc : normIdx m w.x w.y = some (jy, jx)
        · rw [if_pos hc]
          rw [hn] at hc
          injection hc with hc
          injection hc with h1 h2
          subst h1; subst h2
          obtain ⟨hb1, hb2⟩ := normIdx_lt hn
          rw [hm2]
          exact getN_setN_self _ hb1 hb2
        · rw [if_neg hc]
          rw [hm2]
          apply getN_setN_ne
          rintro ⟨e1, e2⟩
          apply hc
          rw [hn, e1, e2]

theorem gridExt {a b : GridMap} (h : sameShape a b)
    (hg : ∀ jy jx, getN a jy jx = getN b jy jx) : a = b := by
  apply List.ext_getElem h.1
  intro n h1 h2
  have hrow : (a.getD n []).length = (b.getD n []).length := h.2 n
  rw [getD_of_lt a h1, getD_of_lt b h2] at hrow
  apply List.ext_getElem hrow
  intro i hi1 hi2
  have := hg n i
  unfold getN at this
  rw [getD_of_lt a h1, getD_of_lt b h2] at this
  rw [getD_of_lt _ hi1, getD_of_lt _ hi2] at this
  exact this

theorem mapApply_idem {m m' : GridMap} {ws : List CellWrite}
    (h : mapApply m ws = some m') : mapApply m' ws = some m' := by
  have hshape : sameShape m' m := mapApply_shape h
  obtain ⟨m'', hm''⟩ := mapApply_ok_congr hshape h
  have heq : m'' = m' := by
    apply gridExt (mapApply_shape hm'')
    intro jy jx
    have e1 := mapApply_getN hm'' jy jx
    have e2 := mapApply_getN h jy jx
    rw [lastVal_congr hshape ws jy jx] at e1
    cases hlv : lastVal m ws jy jx with
    | some t =>
      simp only [hlv] at e1 e2
      rw [e1, e2]
    | none =>
      simp only [hlv] at e1
      exact e1
  rw [heq] at hm''
  exact hm''

/-! The three write loops of the handlers, characterised as `mapApply`
runs of their write sequences. -/

theorem mapApply_singleton (m : GridMap) (w : CellWrite) :
    mapApply m [w] = setCell m w.x w.y w.tile := by
  cases hsc : setCell m w.x w.y w.tile <;> simp [mapApply, hsc]

theorem mapApply_append_some {m m' : GridMap} {a b : List CellWrite}
    (h : mapApply m (a ++ b) = some m') :
    ∃ mi, mapApply m a = some mi ∧ mapApply mi b = some m' := by
  rw [mapApply_append] at h
  cases hma : mapApply m a with
  | none => rw [hma] at h; exact Option.noConfusion h
  | some mi =>
    rw [hma] at h
    exact ⟨mi, rfl, h⟩

theorem playersLoop_ok_iff (you : Option String) (ps : List (String × Pos))
    (reg reg' : List (String × Tile)) (m m' : GridMap) :
    playersLoop you reg m ps = (reg', m', none) ↔
      reg' = regAfter you ps reg ∧ mapApply m (playerWrites you ps) = some m' := by
  induction ps generalizing reg m with
  | nil =>
    simp only [playersLoop, regAfter, playerWrites, List.foldl_nil, List.map_nil, mapApply,
      Prod.mk.injEq, Option.some.injEq]
    constructor
    · rintro ⟨h1, h2, _⟩; exact ⟨h1.symm, h2⟩
    · rintro ⟨h1, h2⟩
      exact ⟨h1.symm, h2, trivial⟩
  | cons q rest ih =>
    obtain ⟨pid, p⟩ := q
    cases hsc : setCell m p.x p.y (playerTile p (you == some pid)) with
    | none =>
      simp [playersLoop, hsc, playerWrites, mapApply, regAfter]
    | some m2 =>
      simp only [playersLoop, hsc, playerWrites, List.map_cons, mapApply, regAfter,
        List.foldl_cons]
      exact ih (dictInsert reg pid (playerTile p (you == some pid))) m2

theorem playersLoop_fail {you : Option String} {ps : List (String × Pos)}
    {reg : List (String × Tile)} {m : GridMap} {e : PyError}
    (h : (playersLoop you reg m ps).2.2 = some e) :
    mapApply m (playerWrites you ps) = none := by
  induction ps generalizing reg m with
  | nil => exact absurd h (by simp [playersLoop])
  | cons q rest ih =>
    obtain ⟨pid, p⟩ := q
    cases hsc : setCell m p.x p.y (playerTile p (you == some pid)) with
    | none => simp [playerWrites, mapApply, hsc]
    | some m2 =>
      simp only [playersLoop, hsc] at h
      simp only [playerWrites, List.map_cons, mapApply, hsc]
      exact ih h

theorem enemiesListLoop_ok_iff (es es' : List Tile) (m m' : GridMap) (ps : List Pos) :
    enemiesListLoop es m ps = (es', m', none) ↔
      es' = es ++ ps.map enemyTile ∧ mapApply m (enemyWrites ps) = some m' := by
  induction ps generalizing es m with
  | nil =>
    simp only [enemiesListLoop, List.map_nil, List.append_nil, enemyWrites, mapApply,
      Prod.mk.injEq, Option.some.injEq]
    constructor
    · rintro ⟨h1, h2, _⟩; exact ⟨h1.symm, h2⟩
    · rintro ⟨h1, h2⟩
      exact ⟨h1.symm, h2, trivial⟩
  | cons p rest ih =>
    cases hsc : setCell m p.x p.y (enemyTile p) with
    | none =>
      simp [enemiesListLoop, hsc, enemyWrites, mapApply]
    | some m2 =>
      simp only [enemiesListLoop, hsc, enemyWrites, List.map_cons, mapApply]
      rw [ih (es ++ [enemyTile p]) m2]
      constructor
      · rintro ⟨h1, h2⟩
        exact ⟨by rw [h1, List.append_assoc]; rfl, h2⟩
      · rintro ⟨h1, h2⟩
        exact ⟨by rw [h1, List.append_assoc]; rfl, h2⟩

theorem enemiesListLoop_fail {es : List Tile} {m : GridMap} {ps : List Pos} {e : PyError}
    (h : (enemiesListLoop es m ps).2.2 = some e) :
    mapApply m (enemyWrites ps) = none := by
  induction ps generalizing es m with
  | nil => exact absurd h (by simp [enemiesListLoop])
  | cons p rest ih =>
    cases hsc : setCell m p.x p.y (enemyTile p) with
    | none => simp [enemyWrites, mapApply, hsc]
    | some m2 =>
      simp only [enemiesListLoop, hsc] at h
      simp only [enemyWrites, List.map_cons, mapApply, hsc]
      exact ih h

theorem wallsLoop_ok_iff (m m' : GridMap) (size : Int × Int) (walls : List Pos) :
    wallsLoop m size walls = (m', none) ↔
      mapApply m (wallWrites size walls) = some m' := by
  induction walls generalizing m with
  | nil =>
    simp only [wallsLoop, wallWrites, List.map_nil, mapApply, Prod.mk.injEq,
      Option.some.injEq]
    constructor
    · rintro ⟨h1, _⟩; exact h1
    · intro h
      exact ⟨h, trivial⟩
  | cons p rest ih =>
    cases hsc : setCell m p.x p.y (wallTile p size) with
    | none =>
      simp [wallsLoop, hsc, wallWrites, mapApply]
    | some m2 =>
      simp only [wallsLoop, hsc, wallWrites, List.map_cons, mapApply]
      exact ih m2

/-! Characterisation of a successful `handle_state` call: registries are
rebuilt from the message alone, and the map is the base map with the
message write sequence applied. -/

theorem handle_state_intro (c : GameClient) (d : StateData)
    (ps : List (String × Pos)) (ef : EnemiesField) (m' : GridMap)
    (hp : d.players = some ps) (he : d.enemies = some ef) (hok : enemiesOkShape ef)
    (hm : mapApply c.map (stateWrites d.you ps ef d.treasure) = some m') :
    handle_state c d =
      ({ c with players := regAfter d.you ps [],
                enemies := enemiesAfter ef [],
                treasure := treasAfter d.treasure c.treasure,
                map := m' }, none) := by
  unfold stateWrites at hm
  rw [List.append_assoc] at hm
  obtain ⟨mp, hmp, hm3⟩ := mapApply_append_some hm
  obtain ⟨me, hme, hm4⟩ := mapApply_append_some hm3
  have hpl : playersLoop d.you [] c.map ps = (regAfter d.you ps [], mp, none) :=
    (playersLoop_ok_iff ..).mpr ⟨rfl, hmp⟩
  cases ef with
  | dict l =>
    have hl : l = [] := hok
    subst hl
    simp only [enemiesWritesOf, mapApply] at hme
    injection hme with hme
    subst hme
    cases ht : d.treasure with
    | none =>
      simp only [ht, treasureWriteOf, mapApply] at hm4
      injection hm4 with hm4
      subst hm4
      simp [handle_state, hp, hpl, he, enemiesStep, ht, enemiesAfter, treasAfter]
    | some t =>
      simp only [ht, treasureWriteOf, mapApply_singleton] at hm4
      simp [handle_state, hp, hpl, he, enemiesStep, ht, enemiesAfter, treasAfter, hm4]
  | list es =>
    have hel : enemiesListLoop [] mp es = ([] ++ es.map enemyTile, me, none) :=
      (enemiesListLoop_ok_iff ..).mpr ⟨rfl, by simpa [enemiesWritesOf] using hme⟩
    cases ht : d.treasure with
    | none =>
      simp only [ht, treasureWriteOf, mapApply] at hm4
      injection hm4 with hm4
      subst hm4
      simp [handle_state, hp, hpl, he, enemiesStep, hel, ht, enemiesAfter, treasAfter]
    | some t =>
      simp only [ht, treasureWriteOf, mapApply_singleton] at hm4
      simp [handle_state, hp, hpl, he, enemiesStep, hel, ht, enemiesAfter, treasAfter, hm4]

theorem handle_state_elim {c : GameClient} {d : StateData} {c' : GameClient}
    (h : handle_state c d = (c', none)) :
    ∃ ps ef m', d.players = some ps ∧ d.enemies = some ef ∧ enemiesOkShape ef ∧
      mapApply c.map (stateWrites d.you ps ef d.treasure) = some m' ∧
      c' = { c with players := regAfter d.you ps [],
                    enemies := enemiesAfter ef [],
                    treasure := treasAfter d.treasure c.treasure,
                    map := m' } := by
  cases hp : d.players with
  | none =>
    simp only [handle_state, hp] at h
    injection h with _ h2
    exact Option.noConfusion h2
  | some ps =>
    rcases hpl : playersLoop d.you [] c.map ps with ⟨reg, m, err⟩
    cases err with
    | some e =>
      simp only [handle_state, hp, hpl] at h
      injection h with _ h2
      exact Option.noConfusion h2
    | none =>
      obtain ⟨hreg, hmp⟩ := (playersLoop_ok_iff ..).mp hpl
      cases he : d.enemies with
      | none =>
        simp only [handle_state, hp, hpl, he] at h
        injection h with _ h2
        exact Option.noConfusion h2
      | some ef =>
        cases ef with
        | dict l =>
          cases l with
          | cons q l2 =>
            simp only [handle_state, hp, hpl, he, enemiesStep] at h
            injection h with _ h2
            exact Option.noConfusion h2
          | nil =>
            cases ht : d.treasure with
            | none =>
              simp only [handle_state, hp, hpl, he, enemiesStep, ht] at h
              refine ⟨ps, .dict [], m, rfl, rfl, rfl, ?_, ?_⟩
              · simp only [stateWrites, enemiesWritesOf, ht, treasureWriteOf,
                  List.append_nil]
                exact hmp
              · injection h with h1 h2
                rw [← h1, hreg]
                simp [enemiesAfter, treasAfter, ht]
            | some t =>
              cases hsc : setCell m t.x t.y
                  (treasureTile ⟨t.x, t.y⟩ (t.collected.getD false)) with
              | none =>
                simp only [handle_state, hp, hpl, he, enemiesStep, ht, hsc] at h
                injection h with _ h2
                exact Option.noConfusion h2
              | some m2 =>
                simp only [handle_state, hp, hpl, he, enemiesStep, ht, hsc] at h
                refine ⟨ps, .dict [], m2, rfl, rfl, rfl, ?_, ?_⟩
                · simp only [stateWrites, enemiesWritesOf, ht, treasureWriteOf,
                    List.append_nil, mapApply_append, hmp, Option.some_bind,
                    mapApply_singleton]
                  exact hsc
                · injection h with h1 h2
                  rw [← h1, hreg]
                  simp [enemiesAfter, treasAfter, ht]
        | list es =>
          rcases hel : enemiesListLoop ([] : List Tile) m es with ⟨es2, m2, err2⟩
          cases err2 with
          | some e2 =>
            simp only [handle_state, hp, hpl, he, enemiesStep, hel] at h
            injection h with _ h2
            exact Option.noConfusion h2
          | none =>
            obtain ⟨hes2, hme⟩ := (enemiesListLoop_ok_iff ..).mp hel
            cases ht : d.treasure with
            | none =>
              simp only [handle_state, hp, hpl, he, enemiesStep, hel, ht] at h
              refine ⟨ps, .list es, m2, rfl, rfl, trivial, ?_, ?_⟩
              · simp only [stateWrites, enemiesWritesOf, ht, treasureWriteOf,
                  List.append_nil, mapApply_append, hmp, Option.some_bind]
                exact hme
              · injection h with h1 h2
                rw [← h1, hreg, hes2]
                simp [enemiesAfter, treasAfter, ht]
            | some t =>
              cases hsc : setCell m2 t.x t.y
                  (treasureTile ⟨t.x, t.y⟩ (t.collected.getD false)) with
              | none =>
                simp only [handle_state, hp, hpl, he, enemiesStep, hel, ht, hsc] at h
                injection h with _ h2
                exact Option.noConfusion h2
              | some m3 =>
                simp only [handle_state, hp, hpl, he, enemiesStep, hel, ht, hsc] at h
                refine ⟨ps, .list es, m3, rfl, rfl, trivial, ?_, ?_⟩
                · simp only [stateWrites, enemiesWritesOf, ht, treasureWriteOf,
                    mapApply_append, hmp, Option.some_bind, hme, mapApply_singleton]
                  exact hsc
                · injection h with h1 h2
                  rw [← h1, hreg, hes2]
                  simp [enemiesAfter, treasAfter, ht]

/-! Supporting lemmas for the claim theorems. -/

theorem tick_state_err {c : GameClient} {d : StateData} {e : PyError}
    (h : (handle_state c d).2 = some e) : tick c (.stateMsg d) = .error e := by
  rcases hhs : handle_state c d with ⟨c2, err⟩
  rw [hhs] at h
  simp only at h
  subst h
  simp [tick, dispatch, hhs]

theorem treasAfter_idem (td : Option TreasureData) (old : Option Tile) :
    treasAfter td (treasAfter td old) = treasAfter td old := by
  cases td <;> rfl

theorem dirtySet_self (m : GridMap) : dirtySet m m = [] := by
  simp [dirtySet]

theorem mem_regKeys_dictInsert (reg : List (String × Tile)) (k : String) (v : Tile)
    (a : String) : a ∈ regKeys (dictInsert reg k v) ↔ a ∈ regKeys reg ∨ a = k := by
  unfold dictInsert regKeys
  by_cases hany : reg.any (fun e => e.1 == k) = true
  · rw [if_pos hany, List.map_map]
    have hf : (Prod.fst ∘ fun e : String × Tile => if e.1 == k then (k, v) else e) =
        fun e : String × Tile => e.1 := by
      funext e
      by_cases hek : (e.1 == k) = true
      · simp only [Function.comp_apply, if_pos hek]
        exact (beq_iff_eq.mp hek).symm
      · simp only [Function.comp_apply, if_neg hek]
    rw [hf]
    obtain ⟨e0, he0, he0k⟩ := List.any_eq_true.mp hany
    rw [beq_iff_eq] at he0k
    constructor
    · exact Or.inl
    · rintro (h | h)
      · exact h
      · subst h
        exact List.mem_map.mpr ⟨e0, he0, he0k⟩
  · rw [if_neg hany, List.map_append]
    simp only [List.mem_append, List.map_cons, List.map_nil, List.mem_singleton]

theorem mem_regKeys_regAfter (you : Option String) (ps : List (String × Pos))
    (reg : List (String × Tile)) (a : String) :
    a ∈ regKeys (regAfter you ps reg) ↔ a ∈ regKeys reg ∨ a ∈ ps.map Prod.fst := by
  induction ps generalizing reg with
  | nil => simp [regAfter]
  | cons q rest ih =>
    show a ∈ regKeys (regAfter you rest (dictInsert reg q.1 _)) ↔ _
    rw [ih]
    rw [mem_regKeys_dictInsert]
    simp only [List.map_cons, List.mem_cons]
    tauto

theorem filterMap_render_rows (rows : GridMap) :
    ((rows.map fun row => row.map DrawOp.renderTile ++ [DrawOp.newline]).flatten).filterMap
      (fun op => match op with | DrawOp.renderTile t => some t | _ => none) =
      rows.flatten := by
  induction rows with
  | nil => rfl
  | cons row rows ih =>
    rw [List.map_cons, List.flatten_cons, List.filterMap_append, ih, List.flatten_cons]
    congr 1
    rw [List.filterMap_append, List.filterMap_map]
    have h1 : ((fun op => match op with | DrawOp.renderTile t => some t | _ => none) ∘
        DrawOp.renderTile) = fun t : Tile => some t := rfl
    rw [h1]
    have h2 : ∀ l : List Tile, l.filterMap (fun t => some t) = l := by
      intro l
      induction l with
      | nil => rfl
      | cons t ts iht => simp [List.filterMap_cons, iht]
    rw [h2]
    simp [List.filterMap_cons]

theorem drawnTiles_draw (c : GameClient) : drawnTiles (draw c) = c.map.flatten := by
  unfold draw drawnTiles
  rw [List.filterMap_cons]
  exact filterMap_render_rows c.map

theorem rowLen_of_rect {m : GridMap} {w h : Nat} (hr : rectGrid m w h)
    {iy : Nat} (hiy : iy < h) : rowLen m iy = w := hr.2 iy hiy

theorem normIdx_rect_nonneg {m : GridMap} {w h : Nat} (hr : rectGrid m w h)
    {x y : Int} (hx0 : 0 ≤ x) (hxw : x < (w : Int)) (hy0 : 0 ≤ y) (hyh : y < (h : Int)) :
    normIdx m x y = some (y.toNat, x.toNat) := by
  unfold normIdx
  rw [hr.1]
  simp only [pyIndex_of_nonneg hy0 hyh]
  rw [rowLen_of_rect hr (show y.toNat < h by omega)]
  simp only [pyIndex_of_nonneg hx0 hxw]

theorem normIdx_rect_wrapY {m : GridMap} {w h : Nat} (hr : rectGrid m w h)
    {x y : Int} (hx0 : 0 ≤ x) (hxw : x < (w : Int)) (hy0 : -(h : Int) ≤ y) (hyh : y < 0) :
    normIdx m x y = some (((h : Int) + y).toNat, x.toNat) := by
  unfold normIdx
  rw [hr.1]
  simp only [pyIndex_of_neg hy0 hyh]
  rw [rowLen_of_rect hr (show ((h : Int) + y).toNat < h by omega)]
  simp only [pyIndex_of_nonneg hx0 hxw]

theorem normIdx_rect_oobY {m : GridMap} {w h : Nat} (hr : rectGrid m w h)
    {x y : Int} (hy : (h : Int) ≤ y ∨ y < -(h : Int)) : normIdx m x y = none := by
  unfold normIdx
  rw [hr.1]
  simp only [pyIndex_eq_none (show y < -(h : Int) ∨ (h : Int) ≤ y by omega)]

theorem normIdx_rect_oobX {m : GridMap} {w h : Nat} (hr : rectGrid m w h)
    {x y : Int} (hy : 0 ≤ y ∧ y < (h : Int) ∨ -(h : Int) ≤ y ∧ y < 0)
    (hx : (w : Int) ≤ x ∨ x < -(w : Int)) : normIdx m x y = none := by
  unfold normIdx
  rcases hy with ⟨hy0, hyh⟩ | ⟨hy0, hyh⟩
  · rw [hr.1]
    simp only [pyIndex_of_nonneg hy0 hyh]
    rw [rowLen_of_rect hr (show y.toNat < h by omega)]
    simp only [pyIndex_eq_none (show x < -(w : Int) ∨ (w : Int) ≤ x by omega)]
  · rw [hr.1]
    simp only [pyIndex_of_neg hy0 hyh]
    rw [rowLen_of_rect hr (show ((h : Int) + y).toNat < h by omega)]
    simp only [pyIndex_eq_none (show x < -(w : Int) ∨ (w : Int) ≤ x by omega)]

theorem rectGrid_setN {m : GridMap} {w h : Nat} (hr : rectGrid m w h)
    (iy ix : Nat) (t : Tile) : rectGrid (setN m iy ix t) w h :=
  ⟨(length_setN ..).trans hr.1, fun j hj => (rowLen_setN ..).trans (hr.2 j hj)⟩

/-! Claim theorems. -/

/-- C9: at startup, an absent SERVER_URI, or one not beginning with the
ws:// plaintext-websocket scheme prefix, makes the program print a diagnostic
and exit with status 1 (non-zero) before connecting, and exactly in those
cases; a well-formed endpoint proceeds to connect. -/
theorem C9_startup_endpoint_check (env : Option String) :
    ((∃ msg, startup env = .fatalError msg 1) ↔
      env = none ∨ ∃ u, env = some u ∧ pyStartsWith u "ws://" = false) ∧
    (∀ u, env = some u → pyStartsWith u "ws://" = true → startup env = .proceed u) := by
  cases env with
  | none =>
    refine ⟨⟨fun _ => Or.inl rfl, fun _ => ⟨_, rfl⟩⟩, ?_⟩
    intro u hu
    exact absurd hu (by simp)
  | some u =>
    by_cases hws : pyStartsWith u "ws://" = true
    · refine ⟨⟨?_, ?_⟩, ?_⟩
      · intro ⟨msg, hmsg⟩
        rw [startup, if_pos hws] at hmsg
        exact absurd hmsg (by simp)
      · rintro (h | ⟨u2, hu2, hf⟩)
        · exact absurd h (by simp)
        · injection hu2 with hu2
          subst hu2
          rw [hws] at hf
          exact absurd hf (by simp)
      · intro u2 hu2 _
        injection hu2 with hu2
        subst hu2
        rw [startup, if_pos hws]
    · refine ⟨⟨fun _ => Or.inr ⟨u, rfl, by simpa using hws⟩, fun _ => ?_⟩, ?_⟩
      · exact ⟨_, by rw [startup, if_neg hws]⟩
      · intro u2 hu2 hws2
        injection hu2 with hu2
        subst hu2
        exact absurd hws2 hws

/-- C9 witness: a concrete malformed endpoint is rejected with exit code 1. -/
theorem C9_startup_endpoint_check_witness :
    ∃ msg, startup (some "http://h") = .fatalError msg 1 :=
  (C9_startup_endpoint_check (some "http://h")).1.mpr
    (Or.inr ⟨"http://h", rfl, by decide⟩)

/-- C2 counterexample: after an init placing a Wall at (2,2) and a state
placing the self player at (2,3), pressing w (whose spec target (2,3)+(0,-1)
= (2,2) is the Wall, hence not walkable) still emits an outbound move
message, where the claim requires nothing to be sent. -/
theorem C2_counterexample_wall_move_sent :
    (getCell? clientSelfBelowWall.map 2 2).map (fun t => t.kind.walkable) =
      some false ∧
    getCell? clientSelfBelowWall.map 2 3 = some (playerTile ⟨2, 3⟩ true) ∧
    mainLoopKeyStep "w" = .sendMove "up" :=
  ⟨by decide, by decide, by decide⟩

/-- C2 amended: the input branch sends a move for every key the direction
dict maps, unconditionally — it consults neither the grid nor any
self-position (the handler is a function of the key alone), so no
walkability check ever suppresses a send. -/
theorem C2_move_sent_unconditionally (key dir : String)
    (h : directionMap (pyLower key) = some dir) :
    mainLoopKeyStep key = .sendMove dir := by
  by_cases hq : (pyLower key == "q") = true
  · exfalso
    rw [beq_iff_eq] at hq
    rw [hq] at h
    rw [directionMap] at h
    simp at h
  · rw [mainLoopKeyStep, if_neg hq, h]

/-- C2 witness: the w key sends an up move. -/
theorem C2_move_sent_unconditionally_witness :
    mainLoopKeyStep "w" = .sendMove "up" :=
  C2_move_sent_unconditionally "w" "up" (by decide)

/-- C4 counterexample: a state message whose enemies field has the
documented wire shape (a mapping with one entry) makes the apply raise
TypeError instead of succeeding. -/
theorem C4_counterexample_dict_enemies_raise :
    (handle_state client5 stEnemyDict).2 = some .typeError ∧
    tick client5 (.stateMsg stEnemyDict) = .error .typeError :=
  ⟨by decide, tick_state_err (by decide)⟩

/-- C4 amended: the enemies loop iterates the field as a list of position
objects, not as the documented id-to-position mapping: a mapping with at
least one entry raises TypeError (iterating a dict yields string keys and
`pos["x"]` on a string fails) as soon as the players loop has succeeded,
while a list-shaped field is accepted. -/
theorem C4_dict_enemies_raise (c : GameClient) (d : StateData)
    (ps : List (String × Pos)) (q : String × Pos) (l : List (String × Pos))
    (mp : GridMap)
    (hp : d.players = some ps)
    (hm : mapApply c.map (playerWrites d.you ps) = some mp)
    (he : d.enemies = some (.dict (q :: l))) :
    (handle_state c d).2 = some .typeError := by
  have hpl : playersLoop d.you [] c.map ps = (regAfter d.you ps [], mp, none) :=
    (playersLoop_ok_iff ..).mpr ⟨rfl, hm⟩
  simp [handle_state, hp, hpl, he, enemiesStep]

/-- C4 witness: the concrete dict-shaped enemies message raises TypeError. -/
theorem C4_dict_enemies_raise_witness :
    (handle_state client5 stEnemyDict).2 = some .typeError :=
  C4_dict_enemies_raise client5 stEnemyDict [] ("e1", ⟨1, 1⟩) [] client5.map rfl
    (by decide) rfl

/-- C6 counterexample: reapplying the same state message changes no cell
(the dirty set of the transition is empty), yet the following draw call
still renders all 25 cells of the 5×5 grid, where the claim requires exactly
the dirty cells to be re-rendered. -/
theorem C6_counterexample_full_redraw :
    dirtySet clientP1At22.map clientP1At22Again.map = [] ∧
    (drawnTiles (draw clientP1At22Again)).length = 25 :=
  ⟨by decide, by decide⟩

/-- C6 amended: draw clears the screen and re-renders every cell of the grid
on every call; no dirty set is computed anywhere, so unchanged cells are
redrawn too. -/
theorem C6_draw_renders_every_cell (c : GameClient) :
    drawnTiles (draw c) = c.map.flatten ∧ (draw c).head? = some .clearScreen :=
  ⟨drawnTiles_draw c, rfl⟩

/-- C3 counterexample: Scenario E on a live client — a state message missing
the enemies field raises KeyError (not a logged MalformedMessage), the
registries/grid are left mutated (the player cell for (2,3) was already
written and both registries were cleared), and the loop step crashes instead
of continuing. -/
theorem C3_counterexample_missing_enemies :
    (handle_state clientP1At22 stNoEnemies).2 = some .keyError ∧
    (handle_state clientP1At22 stNoEnemies).1.map ≠ clientP1At22.map ∧
    (handle_state clientP1At22 stNoEnemies).1.players ≠ clientP1At22.players ∧
    tick clientP1At22 (.stateMsg stNoEnemies) = .error .keyError :=
  ⟨by decide, by decide, by decide, tick_state_err (by decide)⟩

/-- C3 amended: a state message missing players or enemies always makes
handle_state raise a Python exception (KeyError at the missing key, or an
IndexError already raised inside the players loop), and since main_loop has
no handler the tick does not continue — the exception escapes the loop.
Mutations performed before the raise (registry clearing, player writes) are
kept, so the update is not atomic. -/
theorem C3_missing_field_raises (c : GameClient) (d : StateData)
    (h : d.players = none ∨ d.enemies = none) :
    ∃ e, (handle_state c d).2 = some e ∧ tick c (.stateMsg d) = .error e := by
  have key : ∀ e, (handle_state c d).2 = some e →
      ∃ e2, (handle_state c d).2 = some e2 ∧ tick c (.stateMsg d) = .error e2 :=
    fun e he => ⟨e, he, tick_state_err he⟩
  rcases h with hp | he
  · exact key .keyError (by simp [handle_state, hp])
  · cases hp : d.players with
    | none => exact key .keyError (by simp [handle_state, hp])
    | some ps =>
      rcases hpl : playersLoop d.you [] c.map ps with ⟨reg, m, err⟩
      cases err with
      | some e => exact key e (by simp [handle_state, hp, hpl])
      | none => exact key .keyError (by simp [handle_state, hp, hpl, he])

/-- C3 witness: the Scenario E message raises on a concrete client. -/
theorem C3_missing_field_raises_witness :
    ∃ e, (handle_state clientP1At22 stNoEnemies).2 = some e ∧
      tick clientP1At22 (.stateMsg stNoEnemies) = .error e :=
  C3_missing_field_raises clientP1At22 stNoEnemies (Or.inr rfl)

/-- C7 counterexample: p1 is tracked after Scenario B, and a subsequent
state message that lists no players applies successfully yet leaves the
players registry empty — the entry for the absent id "p1" was removed,
where the claim requires it to persist. -/
theorem C7_counterexample_entry_removed :
    clientP1At22.players = [("p1", playerTile ⟨2, 2⟩ true)] ∧
    (handle_state clientP1At22 stNobody).2 = none ∧
    (handle_state clientP1At22 stNobody).1.players = [] :=
  ⟨by decide, by decide, by decide⟩

/-- C7 amended: handle_state clears both registries at the start of every
apply and repopulates them from the message alone, so after a successful
apply the registry keys are exactly the ids listed in the message; entries
for ids absent from the message are removed, not preserved. -/
theorem C7_registry_rebuilt_from_message (c : GameClient) (d : StateData)
    (c' : GameClient) (ps : List (String × Pos))
    (h : handle_state c d = (c', none)) (hp : d.players = some ps) :
    ∀ pid, pid ∈ regKeys c'.players ↔ pid ∈ ps.map Prod.fst := by
  obtain ⟨ps2, ef, m', hp2, he, hok, hm, hc⟩ := handle_state_elim h
  rw [hp] at hp2
  injection hp2 with hps
  subst hps
  intro pid
  rw [hc]
  dsimp only
  rw [mem_regKeys_regAfter]
  simp [regKeys]

/-- C7 witness: on the concrete run, p1 is no longer a registry key after
the empty-players apply. -/
theorem C7_registry_rebuilt_from_message_witness :
    ("p1" ∈ regKeys (handle_state clientP1At22 stNobody).1.players) ↔
      "p1" ∈ ([] : List (String × Pos)).map Prod.fst :=
  C7_registry_rebuilt_from_message clientP1At22 stNobody _ [] (by decide) rfl "p1"

/-- C8: applying the same well-formed state message twice in a row is
idempotent — the whole client state (grid, both registries, treasure) after
the second apply equals that after the first, and the dirty set of the
second apply (the cells whose contents it changed) is empty. -/
theorem C8_state_reapply_idempotent (c : GameClient) (d : StateData)
    (c' : GameClient) (h : handle_state c d = (c', none)) :
    handle_state c' d = (c', none) ∧
      dirtySet c'.map (handle_state c' d).1.map = [] := by
  obtain ⟨ps, ef, m', hp, he, hok, hm, hc⟩ := handle_state_elim h
  have hmap : c'.map = m' := by rw [hc]
  have hidem : mapApply c'.map (stateWrites d.you ps ef d.treasure) = some c'.map := by
    rw [hmap]
    exact mapApply_idem hm
  have h2 := handle_state_intro c' d ps ef c'.map hp he hok hidem
  have hfix : ({ c' with players := regAfter d.you ps [],
                         enemies := enemiesAfter ef [],
                         treasure := treasAfter d.treasure c'.treasure,
                         map := c'.map } : GameClient) = c' := by
    rw [hc]
    simp [treasAfter_idem]
  rw [hfix] at h2
  refine ⟨h2, ?_⟩
  rw [h2]
  exact dirtySet_self c'.map

/-- C8 witness: reapplying Scenario B to its own result is a fixed point
with an empty dirty set. -/
theorem C8_state_reapply_idempotent_witness :
    handle_state clientP1At22 stP1At22 = (clientP1At22, none) ∧
      dirtySet clientP1At22.map (handle_state clientP1At22 stP1At22).1.map = [] :=
  C8_state_reapply_idempotent client5 stP1At22 clientP1At22 (by decide)

/-- Computation of handle_state on a singleton-player message whose write
raises IndexError: the registries were already mutated when the exception
fired. -/
theorem handle_state_onePlayer_err (c : GameClient) (x y : Int)
    (h : setCell c.map x y (playerTile ⟨x, y⟩ false) = none) :
    handle_state c (stOnePlayerAt x y) =
      ({ c with players := [("p1", playerTile ⟨x, y⟩ false)], enemies := [] },
        some .indexError) := by
  simp [handle_state, stOnePlayerAt, playersLoop, dictInsert, h]

/-- Computation of handle_state on a singleton-player message whose write
succeeds. -/
theorem handle_state_onePlayer_ok (c : GameClient) (x y : Int) (m2 : GridMap)
    (h : setCell c.map x y (playerTile ⟨x, y⟩ false) = some m2) :
    handle_state c (stOnePlayerAt x y) =
      ({ c with players := [("p1", playerTile ⟨x, y⟩ false)], enemies := [],
                map := m2 }, none) := by
  simp [handle_state, stOnePlayerAt, playersLoop, dictInsert, h, enemiesStep,
    enemiesListLoop]

theorem setCell_none_of_norm {m : GridMap} {x y : Int} (t : Tile)
    (hn : normIdx m x y = none) : setCell m x y t = none := by
  unfold setCell
  simp only [hn]

theorem setCell_some_of_norm {m : GridMap} {x y : Int} {q : Nat × Nat} (t : Tile)
    (hn : normIdx m x y = some q) : setCell m x y t = some (setN m q.1 q.2 t) := by
  unfold setCell
  simp only [hn]

/-- C10 amended: the map write of state application performs no bounds
checking of its own, it inherits Python list indexing: a row index at or
beyond the height (or below the negative range) raises IndexError, as does
an in-row column index at or beyond the width; but a negative coordinate
within one grid extent does not fail and silently overwrites the cell
indexed from the opposite edge. -/
theorem C10_python_indexing (c : GameClient) (w h : Nat) (x y : Int)
    (hr : rectGrid c.map w h) :
    (((h : Int) ≤ y ∨ y < -(h : Int)) →
      (handle_state c (stOnePlayerAt x y)).2 = some .indexError) ∧
    ((0 ≤ y ∧ y < (h : Int) ∨ -(h : Int) ≤ y ∧ y < 0) →
      ((w : Int) ≤ x ∨ x < -(w : Int)) →
      (handle_state c (stOnePlayerAt x y)).2 = some .indexError) ∧
    (-(h : Int) ≤ y → y < 0 → 0 ≤ x → x < (w : Int) →
      (handle_state c (stOnePlayerAt x y)).2 = none ∧
      getN (handle_state c (stOnePlayerAt x y)).1.map ((h : Int) + y).toNat x.toNat =
        playerTile ⟨x, y⟩ false) := by
  refine ⟨?_, ?_, ?_⟩
  · intro hy
    rw [handle_state_onePlayer_err c x y
      (setCell_none_of_norm _ (normIdx_rect_oobY hr hy))]
  · intro hy hx
    rw [handle_state_onePlayer_err c x y
      (setCell_none_of_norm _ (normIdx_rect_oobX hr hy hx))]
  · intro hy0 hyh hx0 hxw
    rw [handle_state_onePlayer_ok c x y _
      (setCell_some_of_norm _ (normIdx_rect_wrapY hr hx0 hxw hy0 hyh))]
    refine ⟨rfl, ?_⟩
    dsimp only
    apply getN_setN_self
    · rw [hr.1]; omega
    · rw [rowLen_of_rect hr (by omega)]; omega

/-- C10 witness: on the 5×5 grid, y = 7 and x = 9 raise IndexError, while
y = -1 succeeds and writes row 4 (the bottom edge). -/
theorem C10_python_indexing_witness :
    (handle_state client5 (stOnePlayerAt 0 7)).2 = some .indexError ∧
    (handle_state client5 (stOnePlayerAt 9 2)).2 = some .indexError ∧
    (handle_state client5 (stOnePlayerAt 0 (-1))).2 = none ∧
    getN (handle_state client5 (stOnePlayerAt 0 (-1))).1.map 4 0 =
      playerTile ⟨0, -1⟩ false := by
  have h1 := (C10_python_indexing client5 5 5 0 7 (by unfold rectGrid; exact ⟨by decide, by decide⟩)).1 (Or.inl (by decide))
  have h2 := (C10_python_indexing client5 5 5 9 2 (by unfold rectGrid; exact ⟨by decide, by decide⟩)).2.1
    (Or.inl (by decide)) (Or.inl (by decide))
  have h3 := (C10_python_indexing client5 5 5 0 (-1) (by unfold rectGrid; exact ⟨by decide, by decide⟩)).2.2
    (by decide) (by decide) (by decide) (by decide)
  exact ⟨h1, h2, h3.1, h3.2⟩

/-- C10 counterexample: the claim says a negative coordinate never fails,
but a coordinate one step beyond the negative range (y = -6 on a 5-row
grid) raises IndexError exactly like a too-large one. -/
theorem C10_counterexample_far_negative :
    (handle_state client5 stFarNegative).2 = some .indexError := by decide

/-- C1 counterexample: Scenario C — after p1 moves from (2,2) to (2,3), the
apply succeeds and sets the Player cell at (2,3) and updates the registry,
but the vacated coordinate (2,2) still holds the stale Player tile instead
of being set back to Empty. -/
theorem C1_counterexample_stale_cell :
    (handle_state clientP1At22 stP1At23).2 = none ∧
    getCell? clientP1At23.map 2 3 = some (playerTile ⟨2, 3⟩ true) ∧
    clientP1At23.players = [("p1", playerTile ⟨2, 3⟩ true)] ∧
    getCell? clientP1At23.map 2 2 = some (playerTile ⟨2, 2⟩ true) ∧
    (getCell? clientP1At23.map 2 2).map Tile.kind ≠ some .empty :=
  ⟨by decide, by decide, by decide, by decide, by decide⟩

/-- Computation of handle_state on a single-player message `msgOne pid p`
whose map write succeeds: the tile is placed with is_self true (the message
carries you = pid), the registry is rebuilt to just this entry, and nothing
else changes — in particular no prior cell is vacated. -/
theorem handle_state_msgOne_ok (c : GameClient) (pid : String) (p : Pos)
    (m2 : GridMap) (h : setCell c.map p.x p.y (playerTile p true) = some m2) :
    handle_state c (msgOne pid p) =
      ({ c with players := [(pid, playerTile p true)], enemies := [],
                map := m2 }, none) := by
  simp [handle_state, msgOne, playersLoop, dictInsert, h, enemiesStep,
    enemiesListLoop, beq_self_eq_true]

/-- C1 amended: moving an already-listed player id to a new in-bounds
position sets a Player cell (with is_self reflecting the message you field)
at the new position and replaces the registry entry, but the previously
occupied cell is never vacated: it retains the stale Player tile (it is not
set to Empty), so the old coordinate is left holding a stale Player cell. -/
theorem C1_move_leaves_stale_cell (c : GameClient) (w h : Nat) (pid : String)
    (a b : Pos) (hr : rectGrid c.map w h)
    (ha : 0 ≤ a.x ∧ a.x < (w : Int) ∧ 0 ≤ a.y ∧ a.y < (h : Int))
    (hb : 0 ≤ b.x ∧ b.x < (w : Int) ∧ 0 ≤ b.y ∧ b.y < (h : Int))
    (hne : a ≠ b) :
    ∃ c1 c2,
      handle_state c (msgOne pid a) = (c1, none) ∧
      handle_state c1 (msgOne pid b) = (c2, none) ∧
      getCell? c2.map b.x b.y = some (playerTile b true) ∧
      c2.players = [(pid, playerTile b true)] ∧
      getCell? c2.map a.x a.y = some (playerTile a true) := by
  obtain ⟨hax0, haxw, hay0, hayh⟩ := ha
  obtain ⟨hbx0, hbxw, hby0, hbyh⟩ := hb
  have hna : normIdx c.map a.x a.y = some (a.y.toNat, a.x.toNat) :=
    normIdx_rect_nonneg hr hax0 haxw hay0 hayh
  have hsc1 : setCell c.map a.x a.y (playerTile a true) =
      some (setN c.map a.y.toNat a.x.toNat (playerTile a true)) :=
    setCell_some_of_norm _ hna
  have h1 := handle_state_msgOne_ok c pid a _ hsc1
  have hr1 : rectGrid (setN c.map a.y.toNat a.x.toNat (playerTile a true)) w h :=
    rectGrid_setN hr ..
  have hnb : normIdx (setN c.map a.y.toNat a.x.toNat (playerTile a true)) b.x b.y =
      some (b.y.toNat, b.x.toNat) :=
    normIdx_rect_nonneg hr1 hbx0 hbxw hby0 hbyh
  have hsc2 : setCell (setN c.map a.y.toNat a.x.toNat (playerTile a true)) b.x b.y
      (playerTile b true) =
      some (setN (setN c.map a.y.toNat a.x.toNat (playerTile a true))
        b.y.toNat b.x.toNat (playerTile b true)) :=
    setCell_some_of_norm _ hnb
  have h2 := handle_state_msgOne_ok
    ({ c with players := [(pid, playerTile a true)], enemies := [],
              map := setN c.map a.y.toNat a.x.toNat (playerTile a true) })
    pid b _ hsc2
  have hr2 : rectGrid (setN (setN c.map a.y.toNat a.x.toNat (playerTile a true))
      b.y.toNat b.x.toNat (playerTile b true)) w h :=
    rectGrid_setN hr1 ..
  have hneN : ¬(b.y.toNat = a.y.toNat ∧ b.x.toNat = a.x.toNat) := by
    rintro ⟨hy, hx⟩
    apply hne
    have hyq : a.y = b.y := by omega
    have hxq : a.x = b.x := by omega
    cases a; cases b
    simp only at hyq hxq
    rw [hyq, hxq]
  refine ⟨_, _, h1, h2, ?_, rfl, ?_⟩
  · show getCell? (setN (setN c.map a.y.toNat a.x.toNat (playerTile a true))
      b.y.toNat b.x.toNat (playerTile b true)) b.x b.y = _
    unfold getCell?
    simp only [normIdx_rect_nonneg hr2 hbx0 hbxw hby0 hbyh]
    rw [getN_setN_self]
    · rw [length_setN, hr.1]; omega
    · rw [rowLen_setN, rowLen_of_rect hr (by omega)]; omega
  · show getCell? (setN (setN c.map a.y.toNat a.x.toNat (playerTile a true))
      b.y.toNat b.x.toNat (playerTile b true)) a.x a.y = _
    unfold getCell?
    simp only [normIdx_rect_nonneg hr2 hax0 haxw hay0 hayh]
    rw [getN_setN_ne _ _ hneN]
    rw [getN_setN_self]
    · rw [hr.1]; omega
    · rw [rowLen_of_rect hr (by omega)]; omega

/-- C1 witness: moving p2 from (1,1) to (3,1) on the 5×5 grid leaves a stale
Player tile at (1,1). -/
theorem C1_move_leaves_stale_cell_witness :
    ∃ c1 c2,
      handle_state client5 (msgOne "p2" ⟨1, 1⟩) = (c1, none) ∧
      handle_state c1 (msgOne "p2" ⟨3, 1⟩) = (c2, none) ∧
      getCell? c2.map 3 1 = some (playerTile ⟨3, 1⟩ true) ∧
      c2.players = [("p2", playerTile ⟨3, 1⟩ true)] ∧
      getCell? c2.map 1 1 = some (playerTile ⟨1, 1⟩ true) :=
  C1_move_leaves_stale_cell client5 5 5 "p2" ⟨1, 1⟩ ⟨3, 1⟩
    (by unfold rectGrid; exact ⟨by decide, by decide⟩)
    (by refine ⟨by decide, by decide, by decide, by decide⟩)
    (by refine ⟨by decide, by decide, by decide, by decide⟩)
    (by decide)

/-! Helpers for the init-layout claim. -/

theorem lastVal_cons (m : GridMap) (w : CellWrite) (ws : List CellWrite)
    (jy jx : Nat) :
    lastVal m (w :: ws) jy jx =
      match lastVal m ws jy jx with
      | some v => some v
      | none => if normIdx m w.x w.y = some (jy, jx) then some w.tile else none := by
  show List.foldl _ (if normIdx m w.x w.y = some (jy, jx) then some w.tile else none) ws = _
  rw [lastVal_foldl_init]

theorem rectGrid_of_sameShape {a b : GridMap} {w h : Nat} (hs : sameShape a b)
    (hr : rectGrid b w h) : rectGrid a w h :=
  ⟨hs.1.trans hr.1, fun iy hiy => (hs.2 iy).trans (hr.2 iy hiy)⟩

theorem rectGrid_buildMap (w h : Int) : rectGrid (buildMap w h) w.toNat h.toNat := by
  constructor
  · simp [buildMap]
  · intro iy hiy
    unfold rowLen buildMap
    simp only [List.getD_eq_getElem?_getD, List.getElem?_map,
      List.getElem?_range hiy, Option.map_some', Option.getD_some,
      List.length_map, List.length_range]

theorem getN_buildMap (w h : Int) {iy ix : Nat} (hiy : iy < h.toNat)
    (hix : ix < w.toNat) :
    getN (buildMap w h) iy ix = emptyTile ⟨Int.ofNat ix, Int.ofNat iy⟩ := by
  unfold getN buildMap
  simp only [List.getD_eq_getElem?_getD, List.getElem?_map, List.getElem?_range hiy,
    Option.map_some', Option.getD_some, List.getElem?_range hix]

theorem mapApply_ok_of_valid (m : GridMap) (ws : List CellWrite)
    (hv : ∀ wr ∈ ws, (normIdx m wr.x wr.y).isSome = true) :
    ∃ m2, mapApply m ws = some m2 := by
  induction ws generalizing m with
  | nil => exact ⟨m, rfl⟩
  | cons w ws ih =>
    have hw := hv w (List.mem_cons_self ..)
    obtain ⟨q, hq⟩ := Option.isSome_iff_exists.mp hw
    have hsc : setCell m w.x w.y w.tile = some (setN m q.1 q.2 w.tile) :=
      setCell_some_of_norm _ hq
    have hshape := sameShape_setN m q.1 q.2 w.tile
    have hv2 : ∀ wr ∈ ws, (normIdx (setN m q.1 q.2 w.tile) wr.x wr.y).isSome = true := by
      intro wr hwr
      rw [normIdx_congr hshape]
      exact hv wr (List.mem_cons_of_mem _ hwr)
    obtain ⟨m2, hm2⟩ := ih _ hv2
    exact ⟨m2, by simp [mapApply, hsc, hm2]⟩

theorem lastVal_of_coordFn (m : GridMap) (ws : List CellWrite)
    (f : Nat × Nat → Tile)
    (hws : ∀ wr ∈ ws, ∃ q, normIdx m wr.x wr.y = some q ∧ wr.tile = f q)
    (jy jx : Nat) :
    lastVal m ws jy jx =
      if ws.any (fun wr => normIdx m wr.x wr.y == some (jy, jx)) then
        some (f (jy, jx))
      else none := by
  induction ws with
  | nil => simp [lastVal]
  | cons w ws ih =>
    rw [lastVal_cons, ih (fun wr hwr => hws wr (List.mem_cons_of_mem _ hwr))]
    obtain ⟨qw, hqw, hfw⟩ := hws w (List.mem_cons_self ..)
    cases hany : ws.any (fun wr => normIdx m wr.x wr.y == some (jy, jx)) with
    | true =>
      simp only [hany, List.any_cons, Bool.or_true, eq_self_iff_true, if_true]
    | false =>
      simp only [hany, List.any_cons, Bool.or_false, Bool.false_eq_true, if_false]
      by_cases hmatch : normIdx m w.x w.y = some (jy, jx)
      · have hbeq : (normIdx m w.x w.y == some (jy, jx)) = true := by
          rw [beq_iff_eq]
          exact hmatch
        simp only [hmatch, if_pos rfl, hbeq, eq_self_iff_true, if_true, hfw]
        rw [hqw] at hmatch
        injection hmatch with hm2
        rw [hm2]
        simp
      · have hbeq : (normIdx m w.x w.y == some (jy, jx)) = false := by
          rw [beq_eq_false_iff_ne]
          exact hmatch
        simp only [hbeq, Bool.false_eq_true, if_false, if_neg hmatch]

/-- C5 counterexample: a valid init message (width 2, height 1, wall list
[(0,0)], exit (0,0), all in bounds) applies successfully, yet the coordinate
listed in walls holds the Exit cell, not a Wall cell — the exit write comes
after the wall writes and overwrites it. -/
theorem C5_counterexample_exit_overwrites_wall :
    initMsgOverlap.walls = some [⟨0, 0⟩] ∧
    initMsgOverlap.exitPos = some ⟨0, 0⟩ ∧
    (handle_init initialClient initMsgOverlap).2 = none ∧
    getCell? (handle_init initialClient initMsgOverlap).1.map 0 0 =
      some (exitTileOf ⟨0, 0⟩) ∧
    getCell? (handle_init initialClient initMsgOverlap).1.map 0 0 ≠
      some (wallTile ⟨0, 0⟩ (2, 1)) :=
  ⟨by decide, by decide, by decide, by decide, by decide⟩

/-- C5 amended: for a valid init message (width, height, walls present and
positive dimensions, all wall and exit coordinates in bounds), the apply
succeeds, the grid has dimensions width × height with every coordinate
holding exactly one cell, and each in-bounds coordinate holds: the Exit cell
if it is the exit coordinate (the exit is written last and overwrites a
coincident wall), otherwise a Wall cell if listed in walls, otherwise an
Empty cell. -/
theorem C5_init_layout (c : GameClient) (d : InitData) (w h : Int)
    (walls : List Pos)
    (hw : d.width = some w) (hh : d.height = some h) (hwalls : d.walls = some walls)
    (hpos : 0 < w ∧ 0 < h)
    (hwb : ∀ p ∈ walls, 0 ≤ p.x ∧ p.x < w ∧ 0 ≤ p.y ∧ p.y < h)
    (heb : ∀ p, d.exitPos = some p → 0 ≤ p.x ∧ p.x < w ∧ 0 ≤ p.y ∧ p.y < h) :
    (handle_init c d).2 = none ∧
    (handle_init c d).1.map_size = (w, h) ∧
    rectGrid (handle_init c d).1.map w.toNat h.toNat ∧
    ∀ x y : Int, 0 ≤ x → x < w → 0 ≤ y → y < h →
      getCell? (handle_init c d).1.map x y =
        some (if d.exitPos = some ⟨x, y⟩ then exitTileOf ⟨x, y⟩
          else if (⟨x, y⟩ : Pos) ∈ walls then wallTile ⟨x, y⟩ (w, h)
          else emptyTile ⟨x, y⟩) := by
  have hbase := rectGrid_buildMap w h
  have hvalid : ∀ wr ∈ wallWrites (w, h) walls,
      (normIdx (buildMap w h) wr.x wr.y).isSome = true := by
    intro wr hwr
    obtain ⟨p, hp, hwr2⟩ := List.mem_map.mp hwr
    obtain ⟨h1, h2, h3, h4⟩ := hwb p hp
    rw [← hwr2]
    dsimp only
    rw [normIdx_rect_nonneg hbase h1 (by omega) h3 (by omega)]
    rfl
  obtain ⟨mW, hmW⟩ := mapApply_ok_of_valid _ _ hvalid
  have hwl : wallsLoop (buildMap w h) (w, h) walls = (mW, none) :=
    (wallsLoop_ok_iff ..).mpr hmW
  have hrW : rectGrid mW w.toNat h.toNat :=
    rectGrid_of_sameShape (mapApply_shape hmW) hbase
  have hcoordfn : ∀ wr ∈ wallWrites (w, h) walls,
      ∃ q, normIdx (buildMap w h) wr.x wr.y = some q ∧
        wr.tile = wallTile ⟨Int.ofNat q.2, Int.ofNat q.1⟩ (w, h) := by
    intro wr hwr
    obtain ⟨p, hp, hwr2⟩ := List.mem_map.mp hwr
    obtain ⟨h1, h2, h3, h4⟩ := hwb p hp
    refine ⟨(p.y.toNat, p.x.toNat), ?_, ?_⟩
    · rw [← hwr2]
      dsimp only
      exact normIdx_rect_nonneg hbase h1 (by omega) h3 (by omega)
    · rw [← hwr2]
      dsimp only
      have e1 : Int.ofNat p.x.toNat = p.x := Int.toNat_of_nonneg h1
      have e2 : Int.ofNat p.y.toNat = p.y := Int.toNat_of_nonneg h3
      rw [e1, e2]
  have hgetW : ∀ x y : Int, 0 ≤ x → x < w → 0 ≤ y → y < h →
      getN mW y.toNat x.toNat =
        (if (⟨x, y⟩ : Pos) ∈ walls then wallTile ⟨x, y⟩ (w, h)
         else emptyTile ⟨x, y⟩) := by
    intro x y hx0 hxw hy0 hyh
    rw [mapApply_getN hmW y.toNat x.toNat]
    rw [lastVal_of_coordFn _ _ _ hcoordfn y.toNat x.toNat]
    by_cases hmem : (⟨x, y⟩ : Pos) ∈ walls
    · have hany : (wallWrites (w, h) walls).any
          (fun wr => normIdx (buildMap w h) wr.x wr.y == some (y.toNat, x.toNat)) = true := by
        rw [List.any_eq_true]
        refine ⟨⟨x, y, wallTile ⟨x, y⟩ (w, h)⟩, ?_, ?_⟩
        · exact List.mem_map.mpr ⟨⟨x, y⟩, hmem, rfl⟩
        · dsimp only
          rw [beq_iff_eq, normIdx_rect_nonneg hbase hx0 (by omega) hy0 (by omega)]
      rw [if_pos hany, if_pos hmem]
      dsimp only
      have e1 : Int.ofNat x.toNat = x := Int.toNat_of_nonneg hx0
      have e2 : Int.ofNat y.toNat = y := Int.toNat_of_nonneg hy0
      rw [e1, e2]
    · have hany : (wallWrites (w, h) walls).any
          (fun wr => normIdx (buildMap w h) wr.x wr.y == some (y.toNat, x.toNat)) = false := by
        rw [Bool.eq_false_iff]
        intro hcontra
        rw [List.any_eq_true] at hcontra
        obtain ⟨wr, hwr, hbeq⟩ := hcontra
        obtain ⟨p, hp, hwr2⟩ := List.mem_map.mp hwr
        obtain ⟨h1, h2, h3, h4⟩ := hwb p hp
        rw [← hwr2] at hbeq
        dsimp only at hbeq
        rw [beq_iff_eq, normIdx_rect_nonneg hbase h1 (by omega) h3 (by omega)] at hbeq
        injection hbeq with hbeq
        injection hbeq with hby hbx
        apply hmem
        have hpx : p.x = x := by omega
        have hpy : p.y = y := by omega
        have : p = (⟨x, y⟩ : Pos) := by
          cases p
          simp only at hpx hpy
          rw [hpx, hpy]
        rw [← this]
        exact hp
      rw [hany, if_neg hmem]
      simp only [Bool.false_eq_true, if_false]
      rw [getN_buildMap w h (by omega) (by omega)]
      have e1 : Int.ofNat x.toNat = x := Int.toNat_of_nonneg hx0
      have e2 : Int.ofNat y.toNat = y := Int.toNat_of_nonneg hy0
      rw [e1, e2]
  cases hex : d.exitPos with
  | none =>
    have hinit : handle_init c d =
        ({ c with map_size := (w, h), map := mW }, none) := by
      simp only [handle_init, hw, hh, hwalls, hwl, hex]
    rw [hinit]
    refine ⟨rfl, rfl, hrW, ?_⟩
    intro x y hx0 hxw hy0 hyh
    show getCell? mW x y = _
    unfold getCell?
    rw [normIdx_rect_nonneg hrW hx0 (by omega) hy0 (by omega)]
    show some (getN mW y.toNat x.toNat) = _
    rw [hgetW x y hx0 hxw hy0 hyh]
    simp
  | some pe =>
    obtain ⟨he1, he2, he3, he4⟩ := heb pe hex
    have hnE : normIdx mW pe.x pe.y = some (pe.y.toNat, pe.x.toNat) :=
      normIdx_rect_nonneg hrW he1 (by omega) he3 (by omega)
    have hscE : setCell mW pe.x pe.y (exitTileOf pe) =
        some (setN mW pe.y.toNat pe.x.toNat (exitTileOf pe)) :=
      setCell_some_of_norm _ hnE
    have hinit : handle_init c d =
        ({ c with map_size := (w, h), exitTile := some (exitTileOf pe),
                  map := setN mW pe.y.toNat pe.x.toNat (exitTileOf pe) }, none) := by
      simp only [handle_init, hw, hh, hwalls, hwl, hex, hscE]
    rw [hinit]
    refine ⟨rfl, rfl, rectGrid_setN hrW .., ?_⟩
    intro x y hx0 hxw hy0 hyh
    show getCell? (setN mW pe.y.toNat pe.x.toNat (exitTileOf pe)) x y = _
    unfold getCell?
    rw [normIdx_rect_nonneg (rectGrid_setN hrW ..) hx0 (by omega) hy0 (by omega)]
    show some (getN (setN mW pe.y.toNat pe.x.toNat (exitTileOf pe)) y.toNat x.toNat) = _
    by_cases hpe2 : pe = (⟨x, y⟩ : Pos)
    · have hyx : pe.y.toNat = y.toNat ∧ pe.x.toNat = x.toNat := by
        rw [hpe2]
        exact ⟨rfl, rfl⟩
      rw [hyx.1, hyx.2]
      rw [getN_setN_self _ (by rw [hrW.1]; omega)
        (by rw [rowLen_of_rect hrW (by omega)]; omega)]
      rw [hpe2]
      simp
    · have hneN : ¬(pe.y.toNat = y.toNat ∧ pe.x.toNat = x.toNat) := by
        rintro ⟨hyy, hxx⟩
        apply hpe2
        have hpx : pe.x = x := by omega
        have hpy : pe.y = y := by omega
        cases pe
        simp only at hpx hpy
        rw [hpx, hpy]
      rw [getN_setN_ne _ _ hneN]
      rw [hgetW x y hx0 hxw hy0 hyh]
      have hexne : ¬(some pe = some (⟨x, y⟩ : Pos)) := by
        intro hcc
        injection hcc with hcc
        exact hpe2 hcc
      rw [if_neg hexne]

/-- C5 witness: a 3×3 init with a wall at (1,0) and the exit at (2,2)
places Wall, Exit and Empty cells as described. -/
theorem C5_init_layout_witness :
    (handle_init initialClient
      ⟨some 3, some 3, some [⟨1, 0⟩], some ⟨2, 2⟩⟩).2 = none ∧
    getCell? (handle_init initialClient
      ⟨some 3, some 3, some [⟨1, 0⟩], some ⟨2, 2⟩⟩).1.map 1 0 =
      some (wallTile ⟨1, 0⟩ (3, 3)) ∧
    getCell? (handle_init initialClient
      ⟨some 3, some 3, some [⟨1, 0⟩], some ⟨2, 2⟩⟩).1.map 2 2 =
      some (exitTileOf ⟨2, 2⟩) ∧
    getCell? (handle_init initialClient
      ⟨some 3, some 3, some [⟨1, 0⟩], some ⟨2, 2⟩⟩).1.map 0 1 =
      some (emptyTile ⟨0, 1⟩) := by
  have hcl := C5_init_layout initialClient
    ⟨some 3, some 3, some [⟨1, 0⟩], some ⟨2, 2⟩⟩ 3 3 [⟨1, 0⟩]
    rfl rfl rfl (by decide)
    (by intro p hp; simp only [List.mem_singleton] at hp; rw [hp]; decide)
    (by intro p hp; injection hp with hp; rw [← hp]; decide)
  refine ⟨hcl.1, ?_, ?_, ?_⟩
  · have := hcl.2.2.2 1 0 (by decide) (by decide) (by decide) (by decide)
    rw [this]
    decide
  · have := hcl.2.2.2 2 2 (by decide) (by decide) (by decide) (by decide)
    rw [this]
    decide
  · have := hcl.2.2.2 0 1 (by decide) (by decide) (by decide) (by decide)
    rw [this]
    decide

end BoardGameClient
